import Mathlib

/-!
Shallow embedding of the queernel verification bot's core state machine
(src/bot/src/index.js, src/bot/src/fortytwo-api.js, and the utils module).

JavaScript query parameters are modelled as `Option String` (absent or a
string value); JS truthiness of such a value is "present and non-empty".
Optional object fields are `Option` fields.  The pending-verification
registry (a JS `Map` keyed by the state token, in insertion order) is an
association list with unique keys maintained by the `Map`-like operations.
Timestamps are `Int` (JS millisecond numbers; subtraction may go negative).
External I/O (token exchange, claims fetch, Discord guild/member/role
lookups, role addition, DMs) is parameterised by outcome oracles passed to
the handler, which returns the rendered page, the updated registry, and
the ordered list of observable actions it performed.
-/

/-- Truthiness of a JS string-or-undefined value: present and non-empty. -/
def jsTruthy : Option String → Bool
  | none => false
  | some s => s != ""

/-- Truthiness of a JS boolean-or-undefined field. -/
def jsBoolTruthy : Option Bool → Bool
  | none => false
  | some b => b

/-- JS check `!arr || arr.length === 0`, negated: the array field is present
and non-empty.  Array elements are never inspected by the embedded
functions, so they are modelled as `Unit`. -/
def jsArrNonempty : Option (List Unit) → Bool
  | none => false
  | some l => !l.isEmpty

/-- Claim payload returned by the identity provider (42 API `/v2/me`),
restricted to the fields the embedded functions read.  `staff` models the
JS field `staff?` and `active` models `active?`. -/
structure UserData where
  login : Option String
  email : Option String
  staff : Option Bool
  cursus_users : Option (List Unit)
  campus : Option (List Unit)
  active : Option Bool
  pool_year : Option String
  pool_month : Option String
deriving DecidableEq, Repr

/-- Token endpoint response; only `access_token` is destructured by the
callback handler. -/
structure TokenResponse where
  access_token : Option String
deriving DecidableEq, Repr

/-- FortyTwoAPI.validateStudentStatus (src/bot/src/fortytwo-api.js:193-226).
The final pool_year/pool_month check only emits a console warning and does
not affect the returned verdict. -/
def validateStudentStatus (userData : Option UserData) : Bool :=
  match userData with
  | none => false
  | some d =>
    if !jsTruthy d.login || !jsTruthy d.email then false
    else if jsBoolTruthy d.staff then false
    else if !jsArrNonempty d.cursus_users then false
    else if !jsArrNonempty d.campus then false
    else if d.active == some false then false
    else true

/-- FortyTwoAPI.exchangeCodeForToken (fortytwo-api.js:17-51): on a provider
error the thrown message is prefixed as below; on success the response body
is returned.  The raw axios outcome is the oracle argument. -/
def exchangeCodeForToken (outcome : Except String TokenResponse) :
    Except String TokenResponse :=
  match outcome with
  | .ok r => .ok r
  | .error e => .error ("Failed to exchange code for token: " ++ e)

/-- FortyTwoAPI.getUserInfo (fortytwo-api.js:58-86): same shape for the
claims fetch. -/
def getUserInfo (outcome : Except String UserData) : Except String UserData :=
  match outcome with
  | .ok r => .ok r
  | .error e => .error ("Failed to get user info: " ++ e)

/-- A pending-verification record (the value stored in the
`pendingVerifications` Map, index.js:143-147 and 305-309).  `userData` and
`step` are absent at creation and set together by the identity callback. -/
structure Verification where
  discordUserId : String
  discordUsername : String
  timestamp : Int
  userData : Option UserData := none
  step : Option String := none
deriving DecidableEq, Repr

/-- The pending-verification registry: a JS `Map` in insertion order. -/
abbrev Registry := List (String × Verification)

/-- `Map.get(k)`: first (unique) entry with the given key. -/
def regGet (reg : Registry) (k : String) : Option Verification :=
  (List.find? (fun p => p.1 == k) reg).map Prod.snd

/-- `Map.set(k, v)`: replace in place when the key is present, else append. -/
def regSet (reg : Registry) (k : String) (v : Verification) : Registry :=
  if (List.find? (fun p => p.1 == k) reg).isSome then
    reg.map (fun p => if p.1 == k then (k, v) else p)
  else reg ++ [(k, v)]

/-- `Map.delete(k)`. -/
def regDelete (reg : Registry) (k : String) : Registry :=
  List.filter (fun p => p.1 != k) reg

/-- cleanupExpiredVerifications (utils module, lines 461-484): deletes every
entry whose age `now - timestamp` strictly exceeds `maxAge`
(default 10 minutes = 600000 ms). -/
def cleanupExpiredVerifications (reg : Registry) (now : Int)
    (maxAge : Int := 600000) : Registry :=
  List.filter (fun p => !(decide (now - p.2.timestamp > maxAge))) reg

/-- A rendered HTTP response page, identified by its title and the
user-visible message text taken verbatim from the HTML in the source.
`rules` is the consent page with accept/decline links parameterised by the
token; `success` and `declined` are the static terminal pages. -/
inductive Page where
  | simple (title : String) (message : String)
  | rules (token : String)
  | success
  | declined
deriving DecidableEq, Repr

/-- Observable side effects of a handler, in program order. -/
inductive BotAction where
  | grantCall (userId : String)
  | dmAttempt (userId : String)
  | deleteRec (token : String)
  | putRec (token : String)
deriving DecidableEq, Repr

/-- Failure page rendered by the catch blocks of the callback and accept
handlers (index.js:432-441 and 608-617). -/
def catchPage (msg : String) : Page :=
  Page.simple "Verification Failed" ("An error occurred during verification: " ++ msg)

/-- Outcome oracles for the external calls made inside the identity
callback handler, in the order the code performs them.  `memberFetch`
models `guild.members.fetch`: an exception carries the library message,
`ok b` tells whether the fetched member is non-null. -/
structure CallbackEnv where
  tokenOutcome : Except String TokenResponse
  userOutcome : Except String UserData
  guildFound : Bool
  memberFetch : Except String Bool

/-- The try block of `app.get('/auth/callback')` (index.js:254-442),
entered after the state token has been resolved to a live record `v`.
Any thrown error is caught: the record is deleted and the generic failure
page is rendered with the error message. -/
def authCallbackTry (env : CallbackEnv) (reg : Registry) (tok : String)
    (v : Verification) : Page × Registry × List BotAction :=
  match exchangeCodeForToken env.tokenOutcome with
  | .error m => (catchPage m, regDelete reg tok, [BotAction.deleteRec tok])
  | .ok _ =>
    match getUserInfo env.userOutcome with
    | .error m => (catchPage m, regDelete reg tok, [BotAction.deleteRec tok])
    | .ok u =>
      if !validateStudentStatus (some u) then
        (catchPage "User is not a valid 42 student or is staff",
          regDelete reg tok, [BotAction.deleteRec tok])
      else if !env.guildFound then
        (catchPage "Guild not found", regDelete reg tok, [BotAction.deleteRec tok])
      else
        match env.memberFetch with
        | .error m => (catchPage m, regDelete reg tok, [BotAction.deleteRec tok])
        | .ok false =>
          (catchPage "Member not found in guild", regDelete reg tok,
            [BotAction.deleteRec tok])
        | .ok true =>
          (Page.rules tok,
            regSet reg tok { v with userData := some u, step := some "rules_pending" },
            [BotAction.putRec tok])

/-- `app.get('/auth/callback')` (index.js:198-443). -/
def authCallback (env : CallbackEnv) (reg : Registry)
    (code state error : Option String) : Page × Registry × List BotAction :=
  if jsTruthy error then
    (Page.simple "Verification Failed" ("Error: " ++ error.getD ""), reg, [])
  else if !jsTruthy code || !jsTruthy state then
    (Page.simple "Verification Failed" "Missing authorization code or state parameter.",
      reg, [])
  else
    match regGet reg (state.getD "") with
    | none =>
      (Page.simple "Verification Failed" "Invalid or expired verification request.",
        reg, [])
    | some v => authCallbackTry env reg (state.getD "") v

/-- Outcome oracles for the external calls made inside the accept handler. -/
structure AcceptEnv where
  guildFound : Bool
  memberFetch : Except String Bool
  roleFound : Bool
  roleAdd : Except String Unit
  dmOutcome : Except String Unit

/-- The try block of `app.get('/auth/rules/accept')` (index.js:486-618),
entered with a record `v` at step `rules_pending`.  A role-add failure is
rethrown with the `Failed to assign role: ` prefix (index.js:538); a DM
failure after a successful grant is swallowed (index.js:544-550); the
record is deleted on every path through this block. -/
def rulesAcceptTry (env : AcceptEnv) (reg : Registry) (tok : String)
    (v : Verification) : Page × Registry × List BotAction :=
  if !env.guildFound then
    (catchPage "Guild not found", regDelete reg tok, [BotAction.deleteRec tok])
  else
    match env.memberFetch with
    | .error m => (catchPage m, regDelete reg tok, [BotAction.deleteRec tok])
    | .ok false =>
      (catchPage "Member not found in guild", regDelete reg tok, [BotAction.deleteRec tok])
    | .ok true =>
      if !env.roleFound then
        (catchPage "42 role not found", regDelete reg tok, [BotAction.deleteRec tok])
      else
        match env.roleAdd with
        | .error m =>
          (catchPage ("Failed to assign role: " ++ m), regDelete reg tok,
            [BotAction.grantCall v.discordUserId, BotAction.deleteRec tok])
        | .ok _ =>
          (Page.success, regDelete reg tok,
            [BotAction.grantCall v.discordUserId, BotAction.dmAttempt v.discordUserId,
              BotAction.deleteRec tok])

/-- `app.get('/auth/rules/accept')` (index.js:446-619). -/
def rulesAccept (env : AcceptEnv) (reg : Registry) (state : Option String) :
    Page × Registry × List BotAction :=
  if !jsTruthy state then
    (Page.simple "Error" "Missing state parameter.", reg, [])
  else
    match regGet reg (state.getD "") with
    | none => (Page.simple "Error" "Invalid or expired verification request.", reg, [])
    | some v =>
      if v.step != some "rules_pending" then
        (Page.simple "Error" "Invalid or expired verification request.", reg, [])
      else rulesAcceptTry env reg (state.getD "") v

/-- `app.get('/auth/rules/decline')` (index.js:622-707): no external calls
are made; the record is deleted and the static decline page rendered. -/
def rulesDecline (reg : Registry) (state : Option String) :
    Page × Registry × List BotAction :=
  if !jsTruthy state then
    (Page.simple "Error" "Missing state parameter.", reg, [])
  else
    match regGet reg (state.getD "") with
    | none => (Page.simple "Error" "Invalid or expired verification request.", reg, [])
    | some v =>
      if v.step != some "rules_pending" then
        (Page.simple "Error" "Invalid or expired verification request.", reg, [])
      else (Page.declined, regDelete reg (state.getD ""), [BotAction.deleteRec (state.getD "")])

/-- The GuildMemberAdd handler's registry effect (index.js:118-195): when
the joining member lacks the 42 role, a fresh record with only subject
identity and timestamp is stored under the generated state token. -/
def startVerification (reg : Registry) (tok uid uname : String) (ts : Int)
    (hasRole : Bool) : Registry :=
  if hasRole then reg
  else regSet reg tok
    { discordUserId := uid, discordUsername := uname, timestamp := ts }

/-- One externally triggered step of the system: a join event, one of the
three HTTP handlers, or a periodic sweep. -/
inductive Event where
  | startEv (tok uid uname : String) (ts : Int) (hasRole : Bool)
  | callbackEv (env : CallbackEnv) (code state error : Option String)
  | acceptEv (env : AcceptEnv) (state : Option String)
  | declineEv (state : Option String)
  | sweepEv (now maxAge : Int)

/-- Registry transition performed by one event. -/
def stepEvent (reg : Registry) : Event → Registry
  | .startEv tok uid uname ts hasRole => startVerification reg tok uid uname ts hasRole
  | .callbackEv env code state error => (authCallback env reg code state error).2.1
  | .acceptEv env state => (rulesAccept env reg state).2.1
  | .declineEv state => (rulesDecline reg state).2.1
  | .sweepEv now maxAge => cleanupExpiredVerifications reg now maxAge

/-- Step of the record stored under a token, `none` when the record is
absent or still at the implicit AWAITING_IDENTITY phase. -/
def stepOf (reg : Registry) (tok : String) : Option String :=
  (regGet reg tok).bind Verification.step

/-- Keys of the registry are pairwise distinct, as for a JS `Map`. -/
def keysNodup (reg : Registry) : Prop :=
  (List.map Prod.fst reg).Nodup

instance (reg : Registry) : Decidable (keysNodup reg) :=
  inferInstanceAs (Decidable (List.map Prod.fst reg).Nodup)

/-! Helper lemmas about strings and the registry operations. -/

theorem string_eq_of_data (a b : String) (h : a.data = b.data) : a = b := by
  cases a with
  | mk d1 =>
    cases b with
    | mk d2 =>
      simp only [] at h
      exact congrArg String.mk h

theorem string_append_cancel_left (a x y : String) (h : a ++ x = a ++ y) : x = y := by
  have hd : a.data ++ x.data = a.data ++ y.data := by
    have := congrArg String.data h
    simpa [String.data_append] using this
  exact string_eq_of_data x y (List.append_cancel_left hd)

theorem string_append_ne_of_getElem (a b m m' : String) (i : Nat)
    (h1 : i < a.data.length) (h2 : i < b.data.length)
    (h3 : a.data[i]? ≠ b.data[i]?) : a ++ m ≠ b ++ m' := by
  intro h
  have hd : a.data ++ m.data = b.data ++ m'.data := by
    have := congrArg String.data h
    simpa [String.data_append] using this
  apply h3
  calc a.data[i]? = (a.data ++ m.data)[i]? := by rw [List.getElem?_append, if_pos h1]
    _ = (b.data ++ m'.data)[i]? := by rw [hd]
    _ = b.data[i]? := by rw [List.getElem?_append, if_pos h2]

theorem string_ne_append_of_getElem (a b m' : String) (i : Nat)
    (_h1 : i < a.data.length) (h2 : i < b.data.length)
    (h3 : a.data[i]? ≠ b.data[i]?) : a ≠ b ++ m' := by
  intro h
  have hd : a.data = b.data ++ m'.data := by
    have := congrArg String.data h
    simpa [String.data_append] using this
  apply h3
  calc a.data[i]? = (b.data ++ m'.data)[i]? := by rw [hd]
    _ = b.data[i]? := by rw [List.getElem?_append, if_pos h2]

theorem regGet_cons (p : String × Verification) (t : Registry) (k : String) :
    regGet (p :: t) k = if p.1 = k then some p.2 else regGet t k := by
  by_cases h : p.1 = k
  · rw [regGet, List.find?_cons_of_pos _ (by simp [h]), if_pos h]
    rfl
  · rw [regGet, List.find?_cons_of_neg _ (by simp [h]), if_neg h]
    rfl

theorem regGet_delete_self (reg : Registry) (k : String) :
    regGet (regDelete reg k) k = none := by
  induction reg with
  | nil => rfl
  | cons p t ih =>
    by_cases h : p.1 = k
    · rw [regDelete, List.filter_cons_of_neg (by simp [h])]
      exact ih
    · rw [regDelete, List.filter_cons_of_pos (by simp [h])]
      rw [show List.filter (fun p => p.1 != k) t = regDelete t k from rfl] at *
      rw [regGet_cons, if_neg h]
      exact ih

theorem regGet_delete_ne (reg : Registry) (k k' : String) (h : k' ≠ k) :
    regGet (regDelete reg k) k' = regGet reg k' := by
  induction reg with
  | nil => rfl
  | cons p t ih =>
    by_cases hpk : p.1 = k
    · rw [regDelete, List.filter_cons_of_neg (by simp [hpk])]
      rw [show List.filter (fun p => p.1 != k) t = regDelete t k from rfl]
      rw [ih, regGet_cons, if_neg (by rw [hpk]; exact fun he => h he.symm)]
    · rw [regDelete, List.filter_cons_of_pos (by simp [hpk])]
      rw [show List.filter (fun p => p.1 != k) t = regDelete t k from rfl]
      rw [regGet_cons, regGet_cons, ih]

theorem regGet_set_self (reg : Registry) (k : String) (v : Verification) :
    regGet (regSet reg k v) k = some v := by
  rw [regSet]
  by_cases hp : (List.find? (fun p => p.1 == k) reg).isSome
  · rw [if_pos hp]
    induction reg with
    | nil => simp at hp
    | cons p t ih =>
      by_cases h : p.1 = k
      · rw [List.map_cons, if_pos (by simp [h]), regGet_cons, if_pos rfl]
      · rw [List.find?_cons_of_neg _ (by simp [h])] at hp
        rw [List.map_cons, if_neg (by simp [h]), regGet_cons, if_neg h]
        exact ih hp
  · rw [if_neg hp]
    induction reg with
    | nil => rw [List.nil_append, regGet_cons, if_pos rfl]
    | cons p t ih =>
      by_cases h : p.1 = k
      · exact absurd (by rw [List.find?_cons_of_pos _ (by simp [h])]; rfl) hp
      · rw [List.find?_cons_of_neg _ (by simp [h])] at hp
        rw [List.cons_append, regGet_cons, if_neg h]
        exact ih hp

theorem regGet_set_ne (reg : Registry) (k k' : String) (v : Verification)
    (h : k' ≠ k) : regGet (regSet reg k v) k' = regGet reg k' := by
  rw [regSet]
  by_cases hp : (List.find? (fun p => p.1 == k) reg).isSome
  · rw [if_pos hp]
    induction reg with
    | nil => rfl
    | cons p t ih =>
      by_cases hk : p.1 = k
      · rw [List.map_cons, if_pos (by simp [hk]), regGet_cons, regGet_cons,
          if_neg (fun he => h he.symm), if_neg (by rw [hk]; exact fun he => h he.symm)]
        by_cases ht : (List.find? (fun p => p.1 == k) t).isSome
        · exact ih ht
        · clear ih hp
          induction t with
          | nil => rfl
          | cons q s ihs =>
            by_cases hq : q.1 = k
            · exact absurd (by rw [List.find?_cons_of_pos _ (by simp [hq])]; rfl) ht
            · rw [List.find?_cons_of_neg _ (by simp [hq])] at ht
              rw [List.map_cons, if_neg (by simp [hq]), regGet_cons, regGet_cons]
              rw [ihs ht]
      · rw [List.find?_cons_of_neg _ (by simp [hk])] at hp
        rw [List.map_cons, if_neg (by simp [hk]), regGet_cons, regGet_cons, ih hp]
  · rw [if_neg hp]
    induction reg with
    | nil => rw [List.nil_append, regGet_cons, if_neg (fun he => h he.symm)]
    | cons p t ih =>
      by_cases hk : p.1 = k
      · exact absurd (by rw [List.find?_cons_of_pos _ (by simp [hk])]; rfl) hp
      · rw [List.find?_cons_of_neg _ (by simp [hk])] at hp
        rw [List.cons_append, regGet_cons, regGet_cons, ih hp]

theorem regGet_eq_of_mem (reg : Registry) (k : String) (w : Verification)
    (hnd : keysNodup reg) (hmem : (k, w) ∈ reg) : regGet reg k = some w := by
  induction reg with
  | nil => cases hmem
  | cons p t ih =>
    rw [keysNodup, List.map_cons, List.nodup_cons] at hnd
    rw [regGet_cons]
    rcases List.mem_cons.mp hmem with hp | ht
    · rw [if_pos (by rw [← hp])]
      rw [← hp]
    · have hk : p.1 ≠ k := by
        intro he
        exact hnd.1 (he ▸ List.mem_map_of_mem Prod.fst ht)
      rw [if_neg hk]
      exact ih hnd.2 ht

theorem regGet_filter_some (reg : Registry) (q : String × Verification → Bool)
    (k : String) (w : Verification) (hnd : keysNodup reg)
    (h : regGet (List.filter q reg) k = some w) : regGet reg k = some w := by
  rw [regGet] at h
  cases hf : List.find? (fun p => p.1 == k) (List.filter q reg) with
  | none => rw [hf] at h; cases h
  | some p =>
    rw [hf] at h
    have hp1 : p.1 = k := by simpa using List.find?_some hf
    have hp2 : p.2 = w := by simpa using h
    have hmem : p ∈ reg := List.mem_of_mem_filter (List.mem_of_find?_eq_some hf)
    have : (k, w) ∈ reg := by
      rw [← hp1, ← hp2]
      exact hmem
    exact regGet_eq_of_mem reg k w hnd this

/-- Boolean characterisation of the eligibility predicate, read off the
five checks of validateStudentStatus. -/
theorem validateStudentStatus_eq (d : UserData) :
    validateStudentStatus (some d) =
      (jsTruthy d.login && jsTruthy d.email && !jsBoolTruthy d.staff &&
        jsArrNonempty d.cursus_users && jsArrNonempty d.campus &&
        !(d.active == some false)) := by
  simp only [validateStudentStatus]
  cases hl : jsTruthy d.login <;> cases he : jsTruthy d.email <;>
    cases hs : jsBoolTruthy d.staff <;> cases hc : jsArrNonempty d.cursus_users <;>
    cases hca : jsArrNonempty d.campus <;> cases hac : d.active == some false <;> simp

/-- C4: validateStudentStatus is a total Boolean predicate (it is a Lean
function, hence never throws) and returns true exactly when the claim
payload is present, carries a truthy login and email, is not flagged
staff, has a present non-empty cursus_users array and a present non-empty
campus array, and does not carry an explicit active flag equal to false;
it returns false in every other case, in particular for each of the
failing conditions enumerated in the claim. -/
theorem validateStudentStatus_spec (u : Option UserData) :
    validateStudentStatus u = true ↔
      ∃ d, u = some d ∧ jsTruthy d.login = true ∧ jsTruthy d.email = true ∧
        jsBoolTruthy d.staff = false ∧ jsArrNonempty d.cursus_users = true ∧
        jsArrNonempty d.campus = true ∧ d.active ≠ some false := by
  cases u with
  | none => simp [validateStudentStatus]
  | some d =>
    rw [validateStudentStatus_eq]
    constructor
    · intro h
      simp only [Bool.and_eq_true, Bool.not_eq_true'] at h
      refine ⟨d, rfl, h.1.1.1.1.1, h.1.1.1.1.2, h.1.1.1.2, h.1.1.2, h.1.2, ?_⟩
      intro hac
      rw [hac] at h
      simp at h
    · rintro ⟨d', hd, hl, he, hs, hc, hca, hac⟩
      cases hd
      simp [hl, he, hs, hc, hca, hac]

/-- C10: the verdict of validateStudentStatus does not depend on the
pool_year and pool_month fields (which only drive a console warning);
in particular a payload passing the five checks is accepted even with
both pool fields absent. -/
theorem validateStudentStatus_pool_independent :
    (∀ (d : UserData) (py pm : Option String),
      validateStudentStatus (some { d with pool_year := py, pool_month := pm }) =
        validateStudentStatus (some d))
    ∧ (∀ d : UserData, jsTruthy d.login = true → jsTruthy d.email = true →
        jsBoolTruthy d.staff = false → jsArrNonempty d.cursus_users = true →
        jsArrNonempty d.campus = true → d.active ≠ some false →
        validateStudentStatus
          (some { d with pool_year := none, pool_month := none }) = true) := by
  constructor
  · intro d py pm
    cases d
    rfl
  · intro d hl he hs hc hca hac
    have h1 : validateStudentStatus (some { d with pool_year := none, pool_month := none }) =
        validateStudentStatus (some d) := by
      cases d
      rfl
    rw [h1, validateStudentStatus_eq]
    simp [hl, he, hs, hc, hca, hac]

/-- Witness for C10 at a concrete eligible payload with absent pool fields. -/
theorem validateStudentStatus_pool_independent_witness :
    validateStudentStatus
      (some { login := some "jdoe", email := some "jdoe@student.42.fr",
              staff := some false, cursus_users := some [()], campus := some [()],
              active := some true, pool_year := none, pool_month := none }) = true :=
  validateStudentStatus_pool_independent.2
    { login := some "jdoe", email := some "jdoe@student.42.fr",
      staff := some false, cursus_users := some [()], campus := some [()],
      active := some true, pool_year := some "2024", pool_month := some "september" }
    (by decide) (by decide) (by decide) (by decide) (by decide) (by decide)

/-- Membership in the swept registry, unfolded. -/
theorem mem_cleanup_iff (reg : Registry) (tok : String) (v : Verification)
    (now maxAge : Int) :
    (tok, v) ∈ cleanupExpiredVerifications reg now maxAge ↔
      (tok, v) ∈ reg ∧ now - v.timestamp ≤ maxAge := by
  rw [cleanupExpiredVerifications, List.mem_filter]
  simp [not_lt]

/-- C7: the sweep removes exactly the records whose age strictly exceeds
maxAge; the default maxAge argument is 600000 ms (10 minutes); and a
record with createdAt timestamp T is still present after a sweep running
at T + maxAge - eps and absent after one running at T + maxAge + eps, for
any positive eps. -/
theorem cleanupExpiredVerifications_spec (reg : Registry) (tok : String)
    (v : Verification) (now maxAge eps : Int) :
    ((tok, v) ∈ cleanupExpiredVerifications reg now maxAge ↔
      (tok, v) ∈ reg ∧ now - v.timestamp ≤ maxAge)
    ∧ cleanupExpiredVerifications reg now = cleanupExpiredVerifications reg now 600000
    ∧ (0 < eps → (tok, v) ∈ reg →
        ((tok, v) ∈ cleanupExpiredVerifications reg (v.timestamp + maxAge - eps) maxAge ∧
          (tok, v) ∉ cleanupExpiredVerifications reg (v.timestamp + maxAge + eps) maxAge)) := by
  refine ⟨mem_cleanup_iff reg tok v now maxAge, rfl, ?_⟩
  intro heps hmem
  constructor
  · exact (mem_cleanup_iff reg tok v _ maxAge).mpr ⟨hmem, by omega⟩
  · intro hin
    have := ((mem_cleanup_iff reg tok v _ maxAge).mp hin).2
    omega

/-- Witness for C7 at a concrete one-record registry and the default
10-minute maxAge, one millisecond before and after the deadline. -/
theorem cleanupExpiredVerifications_spec_witness :
    ("t1", ({ discordUserId := "u1", discordUsername := "user#1", timestamp := 1000 } : Verification)) ∈
      cleanupExpiredVerifications
        [("t1", { discordUserId := "u1", discordUsername := "user#1", timestamp := 1000 })]
        (1000 + 600000 - 1) 600000
    ∧ ("t1", ({ discordUserId := "u1", discordUsername := "user#1", timestamp := 1000 } : Verification)) ∉
      cleanupExpiredVerifications
        [("t1", { discordUserId := "u1", discordUsername := "user#1", timestamp := 1000 })]
        (1000 + 600000 + 1) 600000 :=
  (cleanupExpiredVerifications_spec
    [("t1", { discordUserId := "u1", discordUsername := "user#1", timestamp := 1000 })]
    "t1" { discordUserId := "u1", discordUsername := "user#1", timestamp := 1000 }
    0 600000 1).2.2 (by decide) (by decide)

/-- C9: the sweep keeps every record whose age is at most maxAge
unchanged (the comparison in the code is strict, so a record whose age
equals maxAge exactly is retained), and the swept registry is a sublist
of the original, so surviving records keep their contents and order. -/
theorem cleanupExpiredVerifications_frame (reg : Registry) (tok : String)
    (v : Verification) (now maxAge : Int) :
    ((tok, v) ∈ reg → now - v.timestamp ≤ maxAge →
      (tok, v) ∈ cleanupExpiredVerifications reg now maxAge)
    ∧ (now - v.timestamp = maxAge → (tok, v) ∈ reg →
      (tok, v) ∈ cleanupExpiredVerifications reg now maxAge)
    ∧ List.Sublist (cleanupExpiredVerifications reg now maxAge) reg := by
  refine ⟨?_, ?_, List.filter_sublist reg⟩
  · intro hmem hage
    exact (mem_cleanup_iff reg tok v now maxAge).mpr ⟨hmem, hage⟩
  · intro hage hmem
    exact (mem_cleanup_iff reg tok v now maxAge).mpr ⟨hmem, le_of_eq hage⟩

/-- Witness for C9 at a record whose age is exactly maxAge. -/
theorem cleanupExpiredVerifications_frame_witness :
    ("t2", ({ discordUserId := "u2", discordUsername := "user#2", timestamp := 1000 } : Verification)) ∈
      cleanupExpiredVerifications
        [("t2", { discordUserId := "u2", discordUsername := "user#2", timestamp := 1000 })]
        601000 600000 :=
  (cleanupExpiredVerifications_frame
    [("t2", { discordUserId := "u2", discordUsername := "user#2", timestamp := 1000 })]
    "t2" { discordUserId := "u2", discordUsername := "user#2", timestamp := 1000 }
    601000 600000).2.1 (by decide) (by decide)

/-- C2 counterexample: on the empty registry (so the state token "s1" is
certainly not registered), a request missing the code parameter and a
well-formed request with an unknown state token produce different
user-visible pages, so the two failure causes are distinguishable. -/
theorem authCallback_failure_pages_differ :
    (authCallback
      { tokenOutcome := Except.error "", userOutcome := Except.error "",
        guildFound := false, memberFetch := Except.error "" }
      [] none (some "s1") none).1 ≠
    (authCallback
      { tokenOutcome := Except.error "", userOutcome := Except.error "",
        guildFound := false, memberFetch := Except.error "" }
      [] (some "c1") (some "s1") none).1 := by decide

/-- C2 amended: a malformed request (missing code or state, no provider
error parameter) and a well-formed request whose state token is not in
the registry both yield a failure page and neither mutates the registry
or performs any action, but the two pages carry different message texts
("Missing authorization code or state parameter." versus "Invalid or
expired verification request."), so the two causes are distinguishable
to the requester. -/
theorem authCallback_failure_pages (env : CallbackEnv) (reg : Registry)
    (code state : Option String) :
    (¬ (jsTruthy code = true ∧ jsTruthy state = true) →
      authCallback env reg code state none =
        (Page.simple "Verification Failed"
          "Missing authorization code or state parameter.", reg, []))
    ∧ (∀ tok, state = some tok → jsTruthy code = true → jsTruthy state = true →
        regGet reg tok = none →
        authCallback env reg code state none =
          (Page.simple "Verification Failed"
            "Invalid or expired verification request.", reg, []))
    ∧ Page.simple "Verification Failed" "Missing authorization code or state parameter." ≠
        Page.simple "Verification Failed" "Invalid or expired verification request." := by
  refine ⟨?_, ?_, by decide⟩
  · intro h
    rw [authCallback]
    rw [if_neg (by simp [jsTruthy])]
    rw [if_pos ?_]
    cases hc : jsTruthy code with
    | false => simp [hc]
    | true =>
      cases hs : jsTruthy state with
      | false => simp [hc, hs]
      | true => exact absurd ⟨hc, hs⟩ h
  · intro tok htok hc hs hget
    rw [authCallback]
    rw [if_neg (by simp [jsTruthy])]
    rw [if_neg (by simp [hc, hs])]
    cases htok
    simp only [Option.getD_some]
    rw [hget]

/-- Witness for the amended C2 at concrete requests on the empty registry. -/
theorem authCallback_failure_pages_witness :
    authCallback
      { tokenOutcome := Except.error "", userOutcome := Except.error "",
        guildFound := false, memberFetch := Except.error "" }
      [] (some "c1") (some "s1") none =
      (Page.simple "Verification Failed"
        "Invalid or expired verification request.", [], []) :=
  (authCallback_failure_pages
    { tokenOutcome := Except.error "", userOutcome := Except.error "",
      guildFound := false, memberFetch := Except.error "" }
    [] (some "c1") (some "s1")).2.1 "s1" rfl (by decide) (by decide) (by decide)

/-- C1: once a token's record has been deleted from the registry, a replay
of the identity-callback URL (with its code parameter and no provider
error) and requests to the accept and decline consent handlers with that
token all render the "Invalid or expired verification request." page,
leave the registry exactly as it was, and perform no action at all (in
particular no grant); being plain function applications they also cannot
crash. -/
theorem consumed_token_replay (cenv : CallbackEnv) (aenv : AcceptEnv)
    (reg : Registry) (tok : String) (code : Option String)
    (hget : regGet reg tok = none) (htok : tok ≠ "")
    (hcode : jsTruthy code = true) :
    authCallback cenv reg code (some tok) none =
      (Page.simple "Verification Failed"
        "Invalid or expired verification request.", reg, [])
    ∧ rulesAccept aenv reg (some tok) =
      (Page.simple "Error" "Invalid or expired verification request.", reg, [])
    ∧ rulesDecline reg (some tok) =
      (Page.simple "Error" "Invalid or expired verification request.", reg, []) := by
  have hst : jsTruthy (some tok) = true := by simp [jsTruthy, htok]
  refine ⟨?_, ?_, ?_⟩
  · rw [authCallback]
    rw [if_neg (by simp [jsTruthy])]
    rw [if_neg (by simp [hcode, hst])]
    simp only [Option.getD_some]
    rw [hget]
  · rw [rulesAccept]
    rw [if_neg (by simp [hst])]
    simp only [Option.getD_some]
    rw [hget]
  · rw [rulesDecline]
    rw [if_neg (by simp [hst])]
    simp only [Option.getD_some]
    rw [hget]

/-- Witness for C1: a concrete consumed token on a registry holding only
an unrelated entry. -/
theorem consumed_token_replay_witness :
    rulesDecline
      [("other", { discordUserId := "u9", discordUsername := "user#9", timestamp := 0 })]
      (some "gone") =
      (Page.simple "Error" "Invalid or expired verification request.",
        [("other", { discordUserId := "u9", discordUsername := "user#9", timestamp := 0 })],
        []) :=
  (consumed_token_replay
    { tokenOutcome := Except.error "", userOutcome := Except.error "",
      guildFound := false, memberFetch := Except.error "" }
    { guildFound := false, memberFetch := Except.error "", roleFound := false,
      roleAdd := Except.error "", dmOutcome := Except.error "" }
    [("other", { discordUserId := "u9", discordUsername := "user#9", timestamp := 0 })]
    "gone" (some "c") (by decide) (by decide) (by decide)).2.2

/-- C8: for a token whose record is at the AWAITING_CONSENT step
(`step = "rules_pending"`), the decline handler deletes the record,
renders the decline confirmation, and its action list contains no grant
(role-add) call; and on any precondition failure (missing state, record
absent, or record at the wrong step) it leaves the registry unchanged
and performs no action. -/
theorem rulesDecline_spec (reg : Registry) (tok : String) (v : Verification)
    (hget : regGet reg tok = some v) (hstep : v.step = some "rules_pending")
    (htok : tok ≠ "") :
    rulesDecline reg (some tok) =
      (Page.declined, regDelete reg tok, [BotAction.deleteRec tok])
    ∧ regGet (rulesDecline reg (some tok)).2.1 tok = none
    ∧ (∀ uid, BotAction.grantCall uid ∉ (rulesDecline reg (some tok)).2.2)
    ∧ (∀ (reg' : Registry) (st : Option String),
        (jsTruthy st = false ∨
          (∃ t, st = some t ∧ regGet reg' t = none) ∨
          (∃ t w, st = some t ∧ regGet reg' t = some w ∧ w.step ≠ some "rules_pending")) →
        (rulesDecline reg' st).2.1 = reg' ∧ (rulesDecline reg' st).2.2 = []) := by
  have hst : jsTruthy (some tok) = true := by simp [jsTruthy, htok]
  have hmain : rulesDecline reg (some tok) =
      (Page.declined, regDelete reg tok, [BotAction.deleteRec tok]) := by
    rw [rulesDecline, if_neg (by simp [hst])]
    simp only [Option.getD_some]
    rw [hget]
    simp [hstep]
  refine ⟨hmain, ?_, ?_, ?_⟩
  · rw [hmain]
    exact regGet_delete_self reg tok
  · intro uid
    rw [hmain]
    simp
  · intro reg' st hpre
    rcases hpre with hf | ⟨t, hts, hn⟩ | ⟨t, w, hts, hw, hws⟩
    · rw [rulesDecline, if_pos (by simp [hf])]
      exact ⟨rfl, rfl⟩
    · cases hts
      by_cases ht : t = ""
      · rw [rulesDecline, if_pos (by simp [jsTruthy, ht])]
        exact ⟨rfl, rfl⟩
      · rw [rulesDecline, if_neg (by simp [jsTruthy, ht])]
        simp only [Option.getD_some]
        rw [hn]
        exact ⟨rfl, rfl⟩
    · cases hts
      by_cases ht : t = ""
      · rw [rulesDecline, if_pos (by simp [jsTruthy, ht])]
        exact ⟨rfl, rfl⟩
      · rw [rulesDecline, if_neg (by simp [jsTruthy, ht])]
        simp only [Option.getD_some]
        rw [hw]
        simp [hws]

/-- A concrete eligible claim payload used by witnesses. -/
def sampleUser : UserData :=
  { login := some "jdoe", email := some "jdoe@student.42.fr",
    staff := some false, cursus_users := some [()], campus := some [()],
    active := some true, pool_year := none, pool_month := none }

/-- A concrete consent-pending record used by witnesses. -/
def consentRec : Verification :=
  { discordUserId := "u3", discordUsername := "user#3", timestamp := 0,
    userData := some sampleUser, step := some "rules_pending" }

/-- Witness for C8 at a concrete consent-pending record. -/
theorem rulesDecline_spec_witness :
    rulesDecline [("tk", consentRec)] (some "tk") =
      (Page.declined, regDelete [("tk", consentRec)] "tk",
        [BotAction.deleteRec "tk"]) :=
  (rulesDecline_spec [("tk", consentRec)] "tk" consentRec
    (by decide) (by decide) (by decide)).1

/-- C6: for an identity callback holding a live record, if the code
exchange fails, the claims fetch fails, or the eligibility check fails
(in particular for claims flagged staff), the record is deleted from the
registry, a "Verification Failed" page carrying the caught error message
is rendered, and the handler's actions contain no grant (role-add) call. -/
theorem authCallback_failure_no_grant (env : CallbackEnv) (reg : Registry)
    (tok : String) (v : Verification) (code : Option String)
    (hcode : jsTruthy code = true) (htok : tok ≠ "")
    (hget : regGet reg tok = some v)
    (hfail : (∃ d, env.tokenOutcome = Except.error d) ∨
             (∃ d, env.userOutcome = Except.error d) ∨
             (∃ u, env.userOutcome = Except.ok u ∧
               validateStudentStatus (some u) = false)) :
    regGet (authCallback env reg code (some tok) none).2.1 tok = none
    ∧ (∃ msg, (authCallback env reg code (some tok) none).1 =
        Page.simple "Verification Failed"
          ("An error occurred during verification: " ++ msg))
    ∧ (∀ uid, BotAction.grantCall uid ∉ (authCallback env reg code (some tok) none).2.2) := by
  have hst : jsTruthy (some tok) = true := by simp [jsTruthy, htok]
  have hcb : authCallback env reg code (some tok) none =
      authCallbackTry env reg tok v := by
    rw [authCallback]
    rw [if_neg (by simp [jsTruthy])]
    rw [if_neg (by simp [hcode, hst])]
    simp only [Option.getD_some]
    rw [hget]
  have htry : ∃ msg, authCallbackTry env reg tok v =
      (catchPage msg, regDelete reg tok, [BotAction.deleteRec tok]) := by
    rcases hfail with ⟨d, hd⟩ | ⟨d, hd⟩ | ⟨u, hu, hval⟩
    · exact ⟨_, by rw [authCallbackTry, hd]; rfl⟩
    · cases hex : env.tokenOutcome with
      | error m => exact ⟨_, by rw [authCallbackTry, hex]; rfl⟩
      | ok r =>
        refine ⟨"Failed to get user info: " ++ d, ?_⟩
        rw [authCallbackTry, hex]
        simp only [exchangeCodeForToken]
        rw [hd]
        rfl
    · cases hex : env.tokenOutcome with
      | error m => exact ⟨_, by rw [authCallbackTry, hex]; rfl⟩
      | ok r =>
        refine ⟨"User is not a valid 42 student or is staff", ?_⟩
        rw [authCallbackTry, hex]
        simp only [exchangeCodeForToken]
        rw [hu]
        simp only [getUserInfo]
        rw [hval]
        rfl
  obtain ⟨msg, hmsg⟩ := htry
  rw [hcb, hmsg]
  exact ⟨regGet_delete_self reg tok, ⟨msg, rfl⟩, fun uid => by simp⟩

/-- Witness for C6: a concrete callback whose fetched claims are flagged
staff (Scenario B): the record is deleted and no grant call is made. -/
theorem authCallback_failure_no_grant_witness :
    regGet
      (authCallback
        { tokenOutcome := Except.ok { access_token := some "at" },
          userOutcome := Except.ok { sampleUser with staff := some true },
          guildFound := true, memberFetch := Except.ok true }
        [("tk", { discordUserId := "u3", discordUsername := "user#3", timestamp := 0 })]
        (some "abc") (some "tk") none).2.1 "tk" = none :=
  (authCallback_failure_no_grant
    { tokenOutcome := Except.ok { access_token := some "at" },
      userOutcome := Except.ok { sampleUser with staff := some true },
      guildFound := true, memberFetch := Except.ok true }
    [("tk", { discordUserId := "u3", discordUsername := "user#3", timestamp := 0 })]
    "tk" { discordUserId := "u3", discordUsername := "user#3", timestamp := 0 }
    (some "abc") (by decide) (by decide) (by decide)
    (Or.inr (Or.inr ⟨{ sampleUser with staff := some true }, rfl, by decide⟩))).1

/-- Every path through the accept handler's try block deletes the record. -/
theorem rulesAcceptTry_registry (env : AcceptEnv) (reg : Registry)
    (tok : String) (v : Verification) :
    (rulesAcceptTry env reg tok v).2.1 = regDelete reg tok := by
  obtain ⟨g, mf, rf, ra, dm⟩ := env
  rcases mf with m | b
  · cases g <;> simp [rulesAcceptTry]
  · rcases ra with m | u
    · cases g <;> cases rf <;> cases b <;> simp [rulesAcceptTry]
    · cases g <;> cases rf <;> cases b <;> simp [rulesAcceptTry]

/-- With a live consent-pending record, the accept handler runs its try
block. -/
theorem rulesAccept_eq_try (env : AcceptEnv) (reg : Registry) (tok : String)
    (v : Verification) (hget : regGet reg tok = some v)
    (hstep : v.step = some "rules_pending") (htok : tok ≠ "") :
    rulesAccept env reg (some tok) = rulesAcceptTry env reg tok v := by
  rw [rulesAccept]
  rw [if_neg (by simp [jsTruthy, htok])]
  simp only [Option.getD_some]
  rw [hget]
  simp [hstep]

/-- Reduction of the callback handler to its try block on a live record. -/
theorem authCallback_eq_try (cenv : CallbackEnv) (reg' : Registry)
    (code st er : Option String) (v' : Verification)
    (he : jsTruthy er = false) (hc : jsTruthy code = true)
    (hs : jsTruthy st = true) (hv : regGet reg' (st.getD "") = some v') :
    authCallback cenv reg' code st er = authCallbackTry cenv reg' (st.getD "") v' := by
  rw [authCallback]
  rw [if_neg (by simp [he])]
  rw [if_neg (by simp [hc, hs])]
  rw [hv]

/-- Under an identity-failure environment (failed exchange, failed claims
fetch, or ineligible claims), the page rendered by the identity callback
is one of six shapes, none of which mentions a role-assignment failure. -/
theorem authCallback_identity_failure_pages (cenv : CallbackEnv)
    (reg' : Registry) (code st er : Option String)
    (hfail : (∃ d, cenv.tokenOutcome = Except.error d) ∨
             (∃ d, cenv.userOutcome = Except.error d) ∨
             (∃ u, cenv.userOutcome = Except.ok u ∧
               validateStudentStatus (some u) = false)) :
    (∃ e, (authCallback cenv reg' code st er).1 =
        Page.simple "Verification Failed" ("Error: " ++ e))
    ∨ (authCallback cenv reg' code st er).1 =
        Page.simple "Verification Failed" "Missing authorization code or state parameter."
    ∨ (authCallback cenv reg' code st er).1 =
        Page.simple "Verification Failed" "Invalid or expired verification request."
    ∨ (∃ d, (authCallback cenv reg' code st er).1 =
        catchPage ("Failed to exchange code for token: " ++ d))
    ∨ (∃ d, (authCallback cenv reg' code st er).1 =
        catchPage ("Failed to get user info: " ++ d))
    ∨ (authCallback cenv reg' code st er).1 =
        catchPage "User is not a valid 42 student or is staff" := by
  by_cases he : jsTruthy er = true
  · refine Or.inl ⟨er.getD "", ?_⟩
    rw [authCallback, if_pos he]
  · have he' : jsTruthy er = false := by simpa using he
    by_cases hcs : (!jsTruthy code || !jsTruthy st) = true
    · refine Or.inr (Or.inl ?_)
      rw [authCallback, if_neg (by simp [he']), if_pos hcs]
    · have hc : jsTruthy code = true := by
        revert hcs
        cases jsTruthy code <;> simp
      have hs : jsTruthy st = true := by
        revert hcs
        cases jsTruthy st <;> simp
      cases hv : regGet reg' (st.getD "") with
      | none =>
        refine Or.inr (Or.inr (Or.inl ?_))
        rw [authCallback, if_neg (by simp [he']), if_neg (by simp [hc, hs]), hv]
      | some v' =>
        rw [authCallback_eq_try cenv reg' code st er v' he' hc hs hv]
        rcases hfail with ⟨d, hd⟩ | ⟨d, hd⟩ | ⟨u, hu, hval⟩
        · refine Or.inr (Or.inr (Or.inr (Or.inl ⟨d, ?_⟩)))
          rw [authCallbackTry, hd]
          rfl
        · cases hex : cenv.tokenOutcome with
          | error m =>
            refine Or.inr (Or.inr (Or.inr (Or.inl ⟨m, ?_⟩)))
            rw [authCallbackTry, hex]
            rfl
          | ok r =>
            refine Or.inr (Or.inr (Or.inr (Or.inr (Or.inl ⟨d, ?_⟩))))
            rw [authCallbackTry, hex]
            simp only [exchangeCodeForToken]
            rw [hd]
            rfl
        · cases hex : cenv.tokenOutcome with
          | error m =>
            refine Or.inr (Or.inr (Or.inr (Or.inl ⟨m, ?_⟩)))
            rw [authCallbackTry, hex]
            rfl
          | ok r =>
            refine Or.inr (Or.inr (Or.inr (Or.inr (Or.inr ?_))))
            rw [authCallbackTry, hex]
            simp only [exchangeCodeForToken]
            rw [hu]
            simp only [getUserInfo]
            rw [hval]
            rfl

/-- C5: with a record at the AWAITING_CONSENT step, the accept handler
deletes the record on every path (whatever the outcomes of the external
calls); when the role-add (grant) call fails it renders the failure page
carrying the "Failed to assign role: " message, which differs from every
page the identity callback can render under an identity failure (failed
exchange, failed claims fetch, or ineligible claims); and when the grant
succeeds the handler performs, in order, the grant call, a best-effort
success-notification attempt, and only then the record deletion. -/
theorem rulesAccept_spec (reg : Registry) (tok : String) (v : Verification)
    (hget : regGet reg tok = some v) (hstep : v.step = some "rules_pending")
    (htok : tok ≠ "") :
    (∀ env : AcceptEnv, regGet (rulesAccept env reg (some tok)).2.1 tok = none)
    ∧ (∀ (env : AcceptEnv) (m : String), env.guildFound = true →
        env.memberFetch = Except.ok true → env.roleFound = true →
        env.roleAdd = Except.error m →
        (rulesAccept env reg (some tok)).1 =
          catchPage ("Failed to assign role: " ++ m)
        ∧ ∀ (cenv : CallbackEnv) (reg' : Registry) (code st er : Option String),
            ((∃ d, cenv.tokenOutcome = Except.error d) ∨
             (∃ d, cenv.userOutcome = Except.error d) ∨
             (∃ u, cenv.userOutcome = Except.ok u ∧
               validateStudentStatus (some u) = false)) →
            (authCallback cenv reg' code st er).1 ≠ (rulesAccept env reg (some tok)).1)
    ∧ (∀ env : AcceptEnv, env.guildFound = true → env.memberFetch = Except.ok true →
        env.roleFound = true → env.roleAdd = Except.ok () →
        (rulesAccept env reg (some tok)).2.2 =
          [BotAction.grantCall v.discordUserId, BotAction.dmAttempt v.discordUserId,
            BotAction.deleteRec tok]) := by
  refine ⟨?_, ?_, ?_⟩
  · intro env
    rw [rulesAccept_eq_try env reg tok v hget hstep htok, rulesAcceptTry_registry]
    exact regGet_delete_self reg tok
  · intro env m hg hm hr ha
    have hpage : (rulesAccept env reg (some tok)).1 =
        catchPage ("Failed to assign role: " ++ m) := by
      rw [rulesAccept_eq_try env reg tok v hget hstep htok]
      rw [rulesAcceptTry, hg, hm, hr, ha]
      rfl
    refine ⟨hpage, ?_⟩
    intro cenv reg' code st er hfail heq
    rw [hpage] at heq
    rcases authCallback_identity_failure_pages cenv reg' code st er hfail with
      ⟨e, hp⟩ | hp | hp | ⟨d, hp⟩ | ⟨d, hp⟩ | hp
    · have h2 : "Error: " ++ e =
          "An error occurred during verification: " ++ ("Failed to assign role: " ++ m) := by
        have := hp.symm.trans heq
        rw [catchPage] at this
        injection this
      exact string_append_ne_of_getElem "Error: "
        "An error occurred during verification: " e _ 0
        (by decide) (by decide) (by decide) h2
    · have h2 : "Missing authorization code or state parameter." =
          "An error occurred during verification: " ++ ("Failed to assign role: " ++ m) := by
        have := hp.symm.trans heq
        rw [catchPage] at this
        injection this
      exact string_ne_append_of_getElem "Missing authorization code or state parameter."
        "An error occurred during verification: " _ 0
        (by decide) (by decide) (by decide) h2
    · have h2 : "Invalid or expired verification request." =
          "An error occurred during verification: " ++ ("Failed to assign role: " ++ m) := by
        have := hp.symm.trans heq
        rw [catchPage] at this
        injection this
      exact string_ne_append_of_getElem "Invalid or expired verification request."
        "An error occurred during verification: " _ 0
        (by decide) (by decide) (by decide) h2
    · have h2 : "Failed to exchange code for token: " ++ d =
          "Failed to assign role: " ++ m := by
      
        have := hp.symm.trans heq
        rw [catchPage, catchPage] at this
        have h3 := congrArg (fun p => match p with
          | Page.simple _ msg => msg
          | _ => "") this
        simp only [] at h3
        exact string_append_cancel_left "An error occurred during verification: " _ _ h3
      exact string_append_ne_of_getElem "Failed to exchange code for token: "
        "Failed to assign role: " d m 10 (by decide) (by decide) (by decide) h2
    · have h2 : "Failed to get user info: " ++ d =
          "Failed to assign role: " ++ m := by
        have := hp.symm.trans heq
        rw [catchPage, catchPage] at this
        have h3 := congrArg (fun p => match p with
          | Page.simple _ msg => msg
          | _ => "") this
        simp only [] at h3
        exact string_append_cancel_left "An error occurred during verification: " _ _ h3
      exact string_append_ne_of_getElem "Failed to get user info: "
        "Failed to assign role: " d m 10 (by decide) (by decide) (by decide) h2
    · have h2 : "User is not a valid 42 student or is staff" =
          "Failed to assign role: " ++ m := by
        have := hp.symm.trans heq
        rw [catchPage, catchPage] at this
        have h3 := congrArg (fun p => match p with
          | Page.simple _ msg => msg
          | _ => "") this
        simp only [] at h3
        exact string_append_cancel_left "An error occurred during verification: " _ _ h3
      exact string_ne_append_of_getElem "User is not a valid 42 student or is staff"
        "Failed to assign role: " m 0 (by decide) (by decide) (by decide) h2
  · intro env hg hm hr ha
    rw [rulesAccept_eq_try env reg tok v hget hstep htok]
    rw [rulesAcceptTry, hg, hm, hr, ha]
    rfl

/-- Witness for C5: on a concrete consent-pending record with all external
calls succeeding, the accept handler's trace is grant, then notification
attempt, then deletion. -/
theorem rulesAccept_spec_witness :
    (rulesAccept
      { guildFound := true, memberFetch := Except.ok true, roleFound := true,
        roleAdd := Except.ok (), dmOutcome := Except.ok () }
      [("tk", consentRec)] (some "tk")).2.2 =
      [BotAction.grantCall "u3", BotAction.dmAttempt "u3", BotAction.deleteRec "tk"] :=
  (rulesAccept_spec [("tk", consentRec)] "tk" consentRec
    (by decide) (by decide) (by decide)).2.2
    { guildFound := true, memberFetch := Except.ok true, roleFound := true,
      roleAdd := Except.ok (), dmOutcome := Except.ok () }
    rfl rfl rfl rfl

/-- A truthy query parameter is a non-empty string. -/
theorem jsTruthy_some (st : Option String) (h : jsTruthy st = true) :
    st = some (st.getD "") ∧ st.getD "" ≠ "" := by
  cases st with
  | none => cases h
  | some s =>
    refine ⟨rfl, ?_⟩
    simpa [jsTruthy] using h

/-- The identity callback either leaves the registry unchanged, deletes
the entry under the state token, or (exactly when exchange, claims fetch
and eligibility all succeed) re-stores the record with claims attached
and step `rules_pending`. -/
theorem authCallback_registry_cases (env : CallbackEnv) (reg : Registry)
    (code state error : Option String) :
    (authCallback env reg code state error).2.1 = reg
    ∨ (authCallback env reg code state error).2.1 = regDelete reg (state.getD "")
    ∨ (∃ v u r, jsTruthy state = true ∧ regGet reg (state.getD "") = some v ∧
        env.tokenOutcome = Except.ok r ∧ env.userOutcome = Except.ok u ∧
        validateStudentStatus (some u) = true ∧
        (authCallback env reg code state error).2.1 =
          regSet reg (state.getD "")
            { v with userData := some u, step := some "rules_pending" }) := by
  by_cases he : jsTruthy error = true
  · refine Or.inl ?_
    rw [authCallback, if_pos he]
  · have he' : jsTruthy error = false := by simpa using he
    by_cases hcs : (!jsTruthy code || !jsTruthy state) = true
    · refine Or.inl ?_
      rw [authCallback, if_neg (by simp [he']), if_pos hcs]
    · have hc : jsTruthy code = true := by
        revert hcs
        cases jsTruthy code <;> simp
      have hs : jsTruthy state = true := by
        revert hcs
        cases jsTruthy state <;> simp
      cases hv : regGet reg (state.getD "") with
      | none =>
        refine Or.inl ?_
        rw [authCallback, if_neg (by simp [he']), if_neg (by simp [hc, hs]), hv]
      | some v =>
        rw [authCallback_eq_try env reg code state error v he' hc hs hv]
        cases hex : env.tokenOutcome with
        | error m =>
          refine Or.inr (Or.inl ?_)
          rw [authCallbackTry, hex]
          rfl
        | ok r =>
          cases huo : env.userOutcome with
          | error d =>
            refine Or.inr (Or.inl ?_)
            rw [authCallbackTry, hex]
            simp only [exchangeCodeForToken]
            rw [huo]
            rfl
          | ok u =>
            by_cases hval : validateStudentStatus (some u) = true
            · by_cases hg : env.guildFound = true
              · cases hmf : env.memberFetch with
                | error m =>
                  refine Or.inr (Or.inl ?_)
                  rw [authCallbackTry, hex]
                  simp only [exchangeCodeForToken]
                  rw [huo]
                  simp only [getUserInfo]
                  rw [hval, hg, hmf]
                  rfl
                | ok b =>
                  cases b with
                  | false =>
                    refine Or.inr (Or.inl ?_)
                    rw [authCallbackTry, hex]
                    simp only [exchangeCodeForToken]
                    rw [huo]
                    simp only [getUserInfo]
                    rw [hval, hg, hmf]
                    rfl
                  | true =>
                    refine Or.inr (Or.inr ⟨v, u, r, hs, rfl, rfl, rfl, hval, ?_⟩)
                    rw [authCallbackTry, hex]
                    simp only [exchangeCodeForToken]
                    rw [huo]
                    simp only [getUserInfo]
                    rw [hval, hg, hmf]
                    rfl
              · have hg' : env.guildFound = false := by simpa using hg
                refine Or.inr (Or.inl ?_)
                rw [authCallbackTry, hex]
                simp only [exchangeCodeForToken]
                rw [huo]
                simp only [getUserInfo]
                rw [hval, hg']
                rfl
            · have hval' : validateStudentStatus (some u) = false := by
                simpa using hval
              refine Or.inr (Or.inl ?_)
              rw [authCallbackTry, hex]
              simp only [exchangeCodeForToken]
              rw [huo]
              simp only [getUserInfo]
              rw [hval']
              rfl

/-- The accept handler either leaves the registry unchanged or deletes
the entry under the state token. -/
theorem rulesAccept_registry_cases (env : AcceptEnv) (reg : Registry)
    (state : Option String) :
    (rulesAccept env reg state).2.1 = reg
    ∨ (rulesAccept env reg state).2.1 = regDelete reg (state.getD "") := by
  rw [rulesAccept]
  by_cases h : jsTruthy state = true
  · rw [if_neg (by simp [h])]
    cases hv : regGet reg (state.getD "") with
    | none => exact Or.inl rfl
    | some v =>
      by_cases hstep : (v.step != some "rules_pending") = true
      · rw [show (match some v with
          | none => (Page.simple "Error" "Invalid or expired verification request.", reg, ([] : List BotAction))
          | some v => if (v.step != some "rules_pending") = true then
              (Page.simple "Error" "Invalid or expired verification request.", reg, [])
            else rulesAcceptTry env reg (state.getD "") v) =
            if (v.step != some "rules_pending") = true then
              (Page.simple "Error" "Invalid or expired verification request.", reg, [])
            else rulesAcceptTry env reg (state.getD "") v from rfl, if_pos hstep]
        exact Or.inl rfl
      · rw [show (match some v with
          | none => (Page.simple "Error" "Invalid or expired verification request.", reg, ([] : List BotAction))
          | some v => if (v.step != some "rules_pending") = true then
              (Page.simple "Error" "Invalid or expired verification request.", reg, [])
            else rulesAcceptTry env reg (state.getD "") v) =
            if (v.step != some "rules_pending") = true then
              (Page.simple "Error" "Invalid or expired verification request.", reg, [])
            else rulesAcceptTry env reg (state.getD "") v from rfl, if_neg hstep]
        exact Or.inr (rulesAcceptTry_registry env reg (state.getD "") v)
  · rw [if_pos (by simpa using h)]
    exact Or.inl rfl

/-- The decline handler either leaves the registry unchanged or deletes
the entry under the state token. -/
theorem rulesDecline_registry_cases (reg : Registry) (state : Option String) :
    (rulesDecline reg state).2.1 = reg
    ∨ (rulesDecline reg state).2.1 = regDelete reg (state.getD "") := by
  rw [rulesDecline]
  by_cases h : jsTruthy state = true
  · rw [if_neg (by simp [h])]
    cases hv : regGet reg (state.getD "") with
    | none => exact Or.inl rfl
    | some v =>
      rw [show (match some v with
          | none => (Page.simple "Error" "Invalid or expired verification request.", reg,
              ([] : List BotAction))
          | some v => if (v.step != some "rules_pending") = true then
              (Page.simple "Error" "Invalid or expired verification request.", reg, [])
            else (Page.declined, regDelete reg (state.getD ""),
              [BotAction.deleteRec (state.getD "")])) =
          (if (v.step != some "rules_pending") = true then
            (Page.simple "Error" "Invalid or expired verification request.", reg, [])
          else (Page.declined, regDelete reg (state.getD ""),
            [BotAction.deleteRec (state.getD "")])) from rfl]
      by_cases hstep : (v.step != some "rules_pending") = true
      · rw [if_pos hstep]
        exact Or.inl rfl
      · rw [if_neg hstep]
        exact Or.inr rfl
  · rw [if_pos (by simpa using h)]
    exact Or.inl rfl

theorem regGet_delete_cases (reg : Registry) (t tok : String) :
    regGet (regDelete reg t) tok = none ∨
      regGet (regDelete reg t) tok = regGet reg tok := by
  by_cases h : tok = t
  · subst h
    exact Or.inl (regGet_delete_self reg tok)
  · exact Or.inr (regGet_delete_ne reg t tok h)

/-- C3 amended: over any single system event, (a) a record can move into
the `rules_pending` (AWAITING_CONSENT) step only through an identity
callback for its own token whose token exchange and claims fetch both
succeeded and whose claims passed the eligibility check, with those
claims attached to the record; and (b) once a record is at
`rules_pending` it either stays at `rules_pending` or is deleted, never
reverting, so the AWAITING_IDENTITY to AWAITING_CONSENT transition
happens at most once during a record's lifetime.  The freshness
hypothesis reflects that start events use freshly generated
cryptographically random tokens. -/
theorem verification_step_transition (reg : Registry) (e : Event) (tok : String)
    (hnd : keysNodup reg)
    (hfresh : ∀ t u n ts hr, e = Event.startEv t u n ts hr → regGet reg t = none) :
    (stepOf reg tok ≠ some "rules_pending" →
      stepOf (stepEvent reg e) tok = some "rules_pending" →
      ∃ env code error, e = Event.callbackEv env code (some tok) error ∧
        (∃ r, env.tokenOutcome = Except.ok r) ∧
        (∃ u, env.userOutcome = Except.ok u ∧ validateStudentStatus (some u) = true ∧
          (regGet (stepEvent reg e) tok).bind Verification.userData = some u))
    ∧ (stepOf reg tok = some "rules_pending" →
      stepOf (stepEvent reg e) tok = some "rules_pending" ∨
        regGet (stepEvent reg e) tok = none) := by
  cases e with
  | startEv t u n ts hr =>
    have hf : regGet reg t = none := hfresh t u n ts hr rfl
    have hse : stepEvent reg (Event.startEv t u n ts hr) =
        startVerification reg t u n ts hr := rfl
    constructor
    · intro hbef haft
      exfalso
      rw [hse, startVerification] at haft
      by_cases hrole : hr = true
      · rw [if_pos hrole] at haft
        exact hbef haft
      · rw [if_neg hrole] at haft
        by_cases htk : tok = t
        · subst htk
          rw [stepOf, regGet_set_self] at haft
          simp at haft
        · rw [stepOf, regGet_set_ne reg t tok _ htk] at haft
          exact hbef haft
    · intro hbef
      rw [hse, startVerification]
      by_cases hrole : hr = true
      · rw [if_pos hrole]
        exact Or.inl hbef
      · rw [if_neg hrole]
        by_cases htk : tok = t
        · subst htk
          rw [stepOf, hf] at hbef
          cases hbef
        · left
          rw [stepOf, regGet_set_ne reg t tok _ htk]
          exact hbef
  | callbackEv env code state error =>
    have hse : stepEvent reg (Event.callbackEv env code state error) =
        (authCallback env reg code state error).2.1 := rfl
    rcases authCallback_registry_cases env reg code state error with
      h0 | h1 | ⟨v, u, r, hs, hv, hex, huo, hval, hset⟩
    · constructor
      · intro hbef haft
        rw [hse, h0] at haft
        exact absurd haft hbef
      · intro hbef
        rw [hse, h0]
        exact Or.inl hbef
    · constructor
      · intro hbef haft
        exfalso
        rw [hse, h1] at haft
        rcases regGet_delete_cases reg (state.getD "") tok with hd | hd
        · rw [stepOf, hd] at haft
          cases haft
        · rw [stepOf, hd] at haft
          exact hbef haft
      · intro hbef
        rw [hse, h1]
        rcases regGet_delete_cases reg (state.getD "") tok with hd | hd
        · exact Or.inr hd
        · left
          rw [stepOf, hd]
          exact hbef
    · constructor
      · intro hbef haft
        by_cases htk : state.getD "" = tok
        · obtain ⟨hstate, hne⟩ := jsTruthy_some state hs
          refine ⟨env, code, error, ?_, ⟨r, hex⟩, ⟨u, huo, hval, ?_⟩⟩
          · rw [hstate, htk]
          · rw [hse, hset, htk, regGet_set_self]
            rfl
        · exfalso
          rw [hse, hset] at haft
          rw [stepOf, regGet_set_ne reg (state.getD "") tok _ (fun hh => htk hh.symm)] at haft
          exact hbef haft
      · intro hbef
        by_cases htk : state.getD "" = tok
        · left
          rw [hse, hset, htk, stepOf, regGet_set_self]
          rfl
        · left
          rw [hse, hset, stepOf,
            regGet_set_ne reg (state.getD "") tok _ (fun hh => htk hh.symm)]
          exact hbef
  | acceptEv env state =>
    have hse : stepEvent reg (Event.acceptEv env state) =
        (rulesAccept env reg state).2.1 := rfl
    rcases rulesAccept_registry_cases env reg state with h0 | h1
    · constructor
      · intro hbef haft
        rw [hse, h0] at haft
        exact absurd haft hbef
      · intro hbef
        rw [hse, h0]
        exact Or.inl hbef
    · constructor
      · intro hbef haft
        exfalso
        rw [hse, h1] at haft
        rcases regGet_delete_cases reg (state.getD "") tok with hd | hd
        · rw [stepOf, hd] at haft
          cases haft
        · rw [stepOf, hd] at haft
          exact hbef haft
      · intro hbef
        rw [hse, h1]
        rcases regGet_delete_cases reg (state.getD "") tok with hd | hd
        · exact Or.inr hd
        · left
          rw [stepOf, hd]
          exact hbef
  | declineEv state =>
    have hse : stepEvent reg (Event.declineEv state) =
        (rulesDecline reg state).2.1 := rfl
    rcases rulesDecline_registry_cases reg state with h0 | h1
    · constructor
      · intro hbef haft
        rw [hse, h0] at haft
        exact absurd haft hbef
      · intro hbef
        rw [hse, h0]
        exact Or.inl hbef
    · constructor
      · intro hbef haft
        exfalso
        rw [hse, h1] at haft
        rcases regGet_delete_cases reg (state.getD "") tok with hd | hd
        · rw [stepOf, hd] at haft
          cases haft
        · rw [stepOf, hd] at haft
          exact hbef haft
      · intro hbef
        rw [hse, h1]
        rcases regGet_delete_cases reg (state.getD "") tok with hd | hd
        · exact Or.inr hd
        · left
          rw [stepOf, hd]
          exact hbef
  | sweepEv now maxAge =>
    have hse : stepEvent reg (Event.sweepEv now maxAge) =
        cleanupExpiredVerifications reg now maxAge := rfl
    constructor
    · intro hbef haft
      exfalso
      rw [hse, stepOf] at haft
      cases hg : regGet (cleanupExpiredVerifications reg now maxAge) tok with
      | none =>
        rw [hg] at haft
        cases haft
      | some w =>
        rw [hg] at haft
        have hw := regGet_filter_some reg
          (fun p => !(decide (now - p.2.timestamp > maxAge))) tok w hnd hg
        apply hbef
        rw [stepOf, hw]
        exact haft
    · intro hbef
      rw [hse]
      cases hg : regGet (cleanupExpiredVerifications reg now maxAge) tok with
      | none => exact Or.inr rfl
      | some w =>
        left
        rw [stepOf, hg]
        have hw := regGet_filter_some reg
          (fun p => !(decide (now - p.2.timestamp > maxAge))) tok w hnd hg
        rw [stepOf, hw] at hbef
        exact hbef

/-- A concrete callback environment in which every external call succeeds
and the claims are eligible. -/
def cbEnvOK : CallbackEnv :=
  { tokenOutcome := Except.ok { access_token := some "at" },
    userOutcome := Except.ok sampleUser, guildFound := true,
    memberFetch := Except.ok true }

/-- A concrete freshly started record (implicit AWAITING_IDENTITY step). -/
def startRec : Verification :=
  { discordUserId := "u1", discordUsername := "user#1", timestamp := 0 }

/-- A concrete successful identity-callback event for token "t". -/
def cbEventOK : Event := Event.callbackEv cbEnvOK (some "c") (some "t") none

/-- C3 counterexample: a record whose lifetime contains no
AWAITING_IDENTITY to AWAITING_CONSENT transition at all.  The record is
created by a join event and then removed by the expiry sweep while still
at the implicit AWAITING_IDENTITY step, so the transition does not occur
"exactly once" over this record's lifetime - it never occurs. -/
theorem verification_transition_counterexample :
    stepOf (stepEvent [] (Event.startEv "t" "u" "n" 0 false)) "t" ≠ some "rules_pending"
    ∧ regGet (stepEvent (stepEvent [] (Event.startEv "t" "u" "n" 0 false))
        (Event.sweepEv 600001 600000)) "t" = none := by decide

/-- Witness for the amended C3 at a concrete successful callback on a
fresh one-record registry. -/
theorem verification_step_transition_witness :
    ∃ env code error,
      cbEventOK = Event.callbackEv env code (some "t") error ∧
      (∃ r, env.tokenOutcome = Except.ok r) ∧
      (∃ u, env.userOutcome = Except.ok u ∧ validateStudentStatus (some u) = true ∧
        (regGet (stepEvent [("t", startRec)] cbEventOK) "t").bind
          Verification.userData = some u) :=
  (verification_step_transition [("t", startRec)] cbEventOK "t"
    (by decide)
    (by intro t u n ts hr h; cases h)).1 (by decide) (by decide)
